import Mathlib

/-!
Verification of the heim_api back-office domain core.

Shallow embedding of the repository's domain logic:
* Payments bounded context: `src/payments/domain/models.py` and
  `src/payments/application/commands/handlers.py`.
* Motor-vehicle bounded context: `src/motor_vehicle_services/domain/*.py`
  and `src/motor_vehicle_services/application/commands/handlers.py`.
* Customer bounded context: `src/customer_management/domain/*.py` and
  `src/customers/application/commands/handlers.py`.

Conventions of the embedding:
* Django ORM rows are plain structures; a repository is a `List` of rows and
  `save` updates the row whose primary key matches (Django `Model.save()`).
* A Python function that can `raise` becomes a Lean function into `Except`;
  each `raise` site is one constructor of the context's error type (carrying
  the data interpolated into the exception message).
* `Decimal` amounts become `Rat` (Python `Decimal` addition is exact).
* Text handling is faithful for ASCII inputs: Python's `str.upper` on the
  ASCII range is `Char.toUpper`, `str.strip` is `String.trim`, and the regex
  classes used by the code (`[a-zA-Z]`, `\d`, explicit character sets) are
  rendered as the corresponding ASCII character predicates.
-/

/-! ## Generic repository helpers

A repository is a list of rows; `find_by` is `objects.filter(pk=...).first()`
and `save_by` is `Model.save()`: it rewrites the row(s) whose primary key
equals the saved object's primary key. -/

/-- `objects.filter(key=k).first()` over an in-memory table. -/
def Repo.find_by (key : α → Nat) (table : List α) (k : Nat) : Option α :=
  table.find? (fun row => key row == k)

/-- Django `Model.save()` on an existing row: replace the row(s) whose
primary key equals the saved object's. -/
def Repo.save_by (key : α → Nat) (table : List α) (x : α) : List α :=
  table.map (fun row => if key row == key x then x else row)

theorem Repo.find_by_save_by (key : α → Nat) (table : List α) (k : Nat)
    (x y : α) (hfind : Repo.find_by key table k = some x) (hkey : key y = k) :
    Repo.find_by key (Repo.save_by key table y) k = some y := by
  induction table with
  | nil => simp [Repo.find_by] at hfind
  | cons a t ih =>
    simp only [Repo.find_by, Repo.save_by, List.map_cons, List.find?_cons] at *
    by_cases ha : key a = k
    · simp [ha, hkey]
    · have hbeq : (key a == k) = false := by simp [ha]
      have hbeq2 : (key a == key y) = false := by simp [hkey, ha]
      rw [hbeq2] at *
      simp only [if_false, Bool.false_eq_true, hbeq] at *
      exact ih hfind

theorem Repo.find_by_some_key (key : α → Nat) (table : List α) (k : Nat)
    (x : α) (hfind : Repo.find_by key table k = some x) : key x = k := by
  have := List.find?_some hfind
  simpa using this

namespace Payments

/-- `Payment` aggregate root (`src/payments/domain/models.py`).  `status` is
the raw string column (choices PENDING, COMPLETED, FAILED, REFUNDED,
CANCELLED); the UUID primary key is abstracted as a `Nat`. -/
structure Payment where
  payment_id : Nat
  payment_method : String
  amount : Rat
  status : String
  reference_number : String
  notes : String
  deriving Repr, DecidableEq

/-- `Payment.is_completed`: true iff the status is COMPLETED. -/
def Payment.is_completed (p : Payment) : Bool :=
  p.status == "COMPLETED"

/-- `Payment.is_refundable`: true iff the status is COMPLETED. -/
def Payment.is_refundable (p : Payment) : Bool :=
  p.status == "COMPLETED"

/-- `Payment.complete`: unconditionally sets the status to COMPLETED
(the PENDING guard lives in the command handler). -/
def Payment.complete (p : Payment) : Payment :=
  { p with status := "COMPLETED" }

/-- `Payment.refund`: raises `ValueError("Payment cannot be refunded")`
unless `is_refundable`; otherwise sets the status to REFUNDED. -/
def Payment.refund (p : Payment) : Except String Payment :=
  if !p.is_refundable then .error "Payment cannot be refunded"
  else .ok { p with status := "REFUNDED" }

/-- `Payment.cancel`: raises `ValueError("Only pending payments can be
cancelled")` unless the status is PENDING; otherwise sets it to CANCELLED. -/
def Payment.cancel (p : Payment) : Except String Payment :=
  if p.status != "PENDING" then .error "Only pending payments can be cancelled"
  else .ok { p with status := "CANCELLED" }

/-- Exceptions a payment command handler can raise
(`src/payments/domain/exceptions.py`; `valueError` is a propagated Python
`ValueError` from a domain method, carrying its message). -/
inductive PaymentError
  | paymentNotFound (identifier : Nat)
  | invalidPaymentState (payment_id : Nat) (current_state : String) (operation : String)
  | valueError (msg : String)
  deriving Repr, DecidableEq

/-- `PaymentRepository.get_by_id`. -/
def get_by_id (repo : List Payment) (pid : Nat) : Option Payment :=
  Repo.find_by Payment.payment_id repo pid

/-- `PaymentRepository.save`. -/
def save (repo : List Payment) (p : Payment) : List Payment :=
  Repo.save_by Payment.payment_id repo p

/-- `PaymentCommandHandler.handle_complete`: load by id, reject unless the
status is PENDING, then `payment.complete()` and save. -/
def handle_complete (repo : List Payment) (pid : Nat) :
    Except PaymentError (List Payment × Payment) :=
  match get_by_id repo pid with
  | none => .error (.paymentNotFound pid)
  | some payment =>
    if payment.status != "PENDING" then
      .error (.invalidPaymentState pid payment.status "complete")
    else
      let payment := payment.complete
      .ok (save repo payment, payment)

/-- `PaymentCommandHandler.handle_refund`: load by id, reject unless
`is_refundable`, then `payment.refund()` and save. -/
def handle_refund (repo : List Payment) (pid : Nat) :
    Except PaymentError (List Payment × Payment) :=
  match get_by_id repo pid with
  | none => .error (.paymentNotFound pid)
  | some payment =>
    if !payment.is_refundable then
      .error (.invalidPaymentState pid payment.status "refund")
    else
      match payment.refund with
      | .error msg => .error (.valueError msg)
      | .ok payment => .ok (save repo payment, payment)

/-- `PaymentCommandHandler.handle_cancel`: load by id, reject unless the
status is PENDING, then `payment.cancel()` and save. -/
def handle_cancel (repo : List Payment) (pid : Nat) :
    Except PaymentError (List Payment × Payment) :=
  match get_by_id repo pid with
  | none => .error (.paymentNotFound pid)
  | some payment =>
    if payment.status != "PENDING" then
      .error (.invalidPaymentState pid payment.status "cancel")
    else
      match payment.cancel with
      | .error msg => .error (.valueError msg)
      | .ok payment => .ok (save repo payment, payment)

/-- Observed database state after running a command: an uncaught exception
aborts the request before any `save`, leaving the stored rows unchanged. -/
def run_state (repo : List Payment) (result : Except PaymentError (List Payment × Payment)) :
    List Payment :=
  match result with
  | .ok (repo', _) => repo'
  | .error _ => repo

theorem refund_ok_of_completed (repo : List Payment) (pid : Nat) (payment : Payment)
    (h : get_by_id repo pid = some payment) (hc : payment.status = "COMPLETED") :
    handle_refund repo pid =
      .ok (save repo { payment with status := "REFUNDED" },
           { payment with status := "REFUNDED" }) := by
  simp [handle_refund, h, Payment.is_refundable, Payment.refund, hc]

theorem cancel_ok_of_pending (repo : List Payment) (pid : Nat) (payment : Payment)
    (h : get_by_id repo pid = some payment) (hc : payment.status = "PENDING") :
    handle_cancel repo pid =
      .ok (save repo { payment with status := "CANCELLED" },
           { payment with status := "CANCELLED" }) := by
  simp [handle_cancel, h, Payment.cancel, hc]

theorem refund_err_of_not_completed (repo : List Payment) (pid : Nat) (payment : Payment)
    (h : get_by_id repo pid = some payment) (hc : payment.status ≠ "COMPLETED") :
    handle_refund repo pid = .error (.invalidPaymentState pid payment.status "refund") := by
  simp [handle_refund, h, Payment.is_refundable, hc]

theorem cancel_err_of_not_pending (repo : List Payment) (pid : Nat) (payment : Payment)
    (h : get_by_id repo pid = some payment) (hc : payment.status ≠ "PENDING") :
    handle_cancel repo pid = .error (.invalidPaymentState pid payment.status "cancel") := by
  simp [handle_cancel, h, hc]

theorem complete_err_of_not_pending (repo : List Payment) (pid : Nat) (payment : Payment)
    (h : get_by_id repo pid = some payment) (hc : payment.status ≠ "PENDING") :
    handle_complete repo pid = .error (.invalidPaymentState pid payment.status "complete") := by
  simp [handle_complete, h, hc]

end Payments

/-- C1: the payment `complete` operation succeeds with final status COMPLETED
exactly when the payment's current status is PENDING; for any other status it
fails with `InvalidPaymentState` and the stored rows (hence the stored status)
are unchanged. -/
theorem C1_complete_iff_pending (repo : List Payments.Payment) (pid : Nat)
    (payment : Payments.Payment) (h : Payments.get_by_id repo pid = some payment) :
    ((∃ repo' p', Payments.handle_complete repo pid = .ok (repo', p') ∧
        p'.status = "COMPLETED")
      ↔ payment.status = "PENDING")
    ∧ (payment.status ≠ "PENDING" →
        Payments.handle_complete repo pid =
          .error (.invalidPaymentState pid payment.status "complete")
        ∧ Payments.run_state repo (Payments.handle_complete repo pid) = repo) := by
  constructor
  · constructor
    · rintro ⟨repo', p', hok, -⟩
      by_contra hnp
      rw [Payments.complete_err_of_not_pending repo pid payment h hnp] at hok
      exact absurd hok (by simp)
    · intro hp
      refine ⟨Payments.save repo { payment with status := "COMPLETED" },
        { payment with status := "COMPLETED" }, ?_, rfl⟩
      simp [Payments.handle_complete, h, hp, Payments.Payment.complete]
  · intro hnp
    refine ⟨Payments.complete_err_of_not_pending repo pid payment h hnp, ?_⟩
    rw [Payments.run_state.eq_def, Payments.complete_err_of_not_pending repo pid payment h hnp]

/-- C2: `refund` succeeds exactly from COMPLETED (mirrored by the pure query
`is_refundable`), `cancel` succeeds exactly from PENDING; refund from PENDING
and cancel from COMPLETED fail with `InvalidPaymentState`; a second refund
after a successful refund fails; and from REFUNDED or CANCELLED every one of
complete/refund/cancel fails with `InvalidPaymentState`. -/
theorem C2_refund_cancel_transitions (repo : List Payments.Payment) (pid : Nat)
    (payment : Payments.Payment) (h : Payments.get_by_id repo pid = some payment) :
    (∀ q : Payments.Payment, q.is_refundable = (q.status == "COMPLETED"))
    ∧ ((∃ r p', Payments.handle_refund repo pid = .ok (r, p') ∧ p'.status = "REFUNDED")
        ↔ payment.status = "COMPLETED")
    ∧ ((∃ r p', Payments.handle_cancel repo pid = .ok (r, p') ∧ p'.status = "CANCELLED")
        ↔ payment.status = "PENDING")
    ∧ (payment.status = "PENDING" →
        Payments.handle_refund repo pid =
          .error (.invalidPaymentState pid "PENDING" "refund"))
    ∧ (payment.status = "COMPLETED" →
        Payments.handle_cancel repo pid =
          .error (.invalidPaymentState pid "COMPLETED" "cancel"))
    ∧ (∀ r p', payment.status = "COMPLETED" →
        Payments.handle_refund repo pid = .ok (r, p') →
        Payments.handle_refund r pid =
          .error (.invalidPaymentState pid "REFUNDED" "refund"))
    ∧ (payment.status = "REFUNDED" ∨ payment.status = "CANCELLED" →
        Payments.handle_complete repo pid =
          .error (.invalidPaymentState pid payment.status "complete")
        ∧ Payments.handle_refund repo pid =
          .error (.invalidPaymentState pid payment.status "refund")
        ∧ Payments.handle_cancel repo pid =
          .error (.invalidPaymentState pid payment.status "cancel")) := by
  have hkey : payment.payment_id = pid :=
    Repo.find_by_some_key Payments.Payment.payment_id repo pid payment h
  refine ⟨fun q => rfl, ?_, ?_, ?_, ?_, ?_, ?_⟩
  · constructor
    · rintro ⟨r, p', hok, -⟩
      by_contra hnc
      rw [Payments.refund_err_of_not_completed repo pid payment h hnc] at hok
      exact absurd hok (by simp)
    · intro hc
      exact ⟨_, _, Payments.refund_ok_of_completed repo pid payment h hc, rfl⟩
  · constructor
    · rintro ⟨r, p', hok, -⟩
      by_contra hnp
      rw [Payments.cancel_err_of_not_pending repo pid payment h hnp] at hok
      exact absurd hok (by simp)
    · intro hp
      exact ⟨_, _, Payments.cancel_ok_of_pending repo pid payment h hp, rfl⟩
  · intro hp
    have := Payments.refund_err_of_not_completed repo pid payment h (by rw [hp]; decide)
    rwa [hp] at this
  · intro hc
    have := Payments.cancel_err_of_not_pending repo pid payment h (by rw [hc]; decide)
    rwa [hc] at this
  · intro r p' hc hok
    rw [Payments.refund_ok_of_completed repo pid payment h hc] at hok
    have hr : Payments.save repo { payment with status := "REFUNDED" } = r :=
      congrArg Prod.fst (Except.ok.inj hok)
    have hp' : ({ payment with status := "REFUNDED" } : Payments.Payment) = p' :=
      congrArg Prod.snd (Except.ok.inj hok)
    subst hr hp'
    have hfind2 : Payments.get_by_id
        (Payments.save repo { payment with status := "REFUNDED" }) pid =
        some { payment with status := "REFUNDED" } :=
      Repo.find_by_save_by Payments.Payment.payment_id repo pid payment
        { payment with status := "REFUNDED" } h (by simpa using hkey)
    exact Payments.refund_err_of_not_completed _ pid _ hfind2 (by simp)
  · rintro (ht | ht) <;>
    exact ⟨Payments.complete_err_of_not_pending repo pid payment h (by rw [ht]; decide),
      Payments.refund_err_of_not_completed repo pid payment h (by rw [ht]; decide),
      Payments.cancel_err_of_not_pending repo pid payment h (by rw [ht]; decide)⟩

/-- Witness for C2 at a concrete table: payment 1 is COMPLETED, its refund
succeeds and produces status REFUNDED. -/
theorem C2_refund_cancel_transitions_witness :
    Payments.get_by_id [⟨1, "CASH", 150, "COMPLETED", "", ""⟩] 1 =
      some ⟨1, "CASH", 150, "COMPLETED", "", ""⟩
    ∧ (∃ r p', Payments.handle_refund [⟨1, "CASH", 150, "COMPLETED", "", ""⟩] 1 =
        .ok (r, p') ∧ p'.status = "REFUNDED") :=
  ⟨by decide,
    (C2_refund_cancel_transitions [⟨1, "CASH", 150, "COMPLETED", "", ""⟩] 1
      ⟨1, "CASH", 150, "COMPLETED", "", ""⟩ (by decide)).2.1.mpr (by decide)⟩

/-- Witness for C1 at a concrete two-payment table: payment 1 is PENDING and
completes; payment 2 is CANCELLED and is rejected. -/
theorem C1_complete_iff_pending_witness :
    (Payments.get_by_id
        [⟨1, "CASH", 150, "PENDING", "", ""⟩, ⟨2, "CARD", 20, "CANCELLED", "", ""⟩] 2 =
      some ⟨2, "CARD", 20, "CANCELLED", "", ""⟩)
    ∧ (Payments.handle_complete
        [⟨1, "CASH", 150, "PENDING", "", ""⟩, ⟨2, "CARD", 20, "CANCELLED", "", ""⟩] 2 =
        .error (.invalidPaymentState 2 "CANCELLED" "complete")) := by
  refine ⟨by decide, ?_⟩
  exact ((C1_complete_iff_pending
      [⟨1, "CASH", 150, "PENDING", "", ""⟩, ⟨2, "CARD", 20, "CANCELLED", "", ""⟩] 2
      ⟨2, "CARD", 20, "CANCELLED", "", ""⟩ (by decide)).2 (by decide)).1

namespace Vehicles

/-- `MotorVehicle` aggregate row as used by
`MotorVehicleCommandHandler` (the rich variant with `id` primary key,
mileage/color/status fields and an optional owner foreign key; the handler,
its tests and the domain events all read exactly these fields). -/
structure MotorVehicle where
  id : Nat
  vin : String
  make : String
  model : String
  year : Nat
  color : String
  fuel_type : String
  transmission : String
  engine_capacity_cc : Nat
  mileage_km : Nat
  license_plate : String
  license_plate_state : String
  status : String
  owner_id : Option Nat
  deriving Repr, DecidableEq

/-- Errors the motor-vehicle command handlers can raise
(`src/motor_vehicle_services/domain/exceptions.py`; `valueError` is a plain
Python `ValueError` carrying its message). -/
inductive MVError
  | motorVehicleNotFound (identifier : Nat)
  | valueError (msg : String)
  deriving Repr, DecidableEq

/-- Message of the `ValueError` raised by `handle_update_mileage` when the
proposed mileage is below the stored one (the `InvalidMileageUpdate` kind). -/
def mileage_error_msg (new_km current_km : Nat) : String :=
  "New mileage (" ++ toString new_km ++ " km) cannot be less than " ++
    "current mileage (" ++ toString current_km ++ " km)"

/-- Message of the `ValueError` raised by `handle_transfer_ownership` when the
target customer id does not resolve (the `ReferenceNotFound` kind). -/
def customer_not_found_msg (cid : Nat) : String :=
  "Customer with ID " ++ toString cid ++ " not found"

/-- Field value carried in a `MotorVehicleUpdated` changes tuple
(`str | int` in the source). -/
inductive PyVal
  | s (v : String)
  | i (v : Nat)
  deriving Repr, DecidableEq

/-- Domain events published by `MotorVehicleCommandHandler`
(`src/motor_vehicle_services/domain/events.py`). -/
inductive MVEvent
  | motorVehicleUpdated (vehicle_id : Nat) (changes : List (String × PyVal))
  | motorVehicleMileageUpdated (vehicle_id old_mileage_km new_mileage_km : Nat)
  | motorVehicleOwnerChanged (vehicle_id : Nat) (old_owner_id new_owner_id : Option Nat)
  deriving Repr, DecidableEq

/-- `MotorVehicleRepository.get_by_id`. -/
def get_by_id (repo : List MotorVehicle) (vid : Nat) : Option MotorVehicle :=
  Repo.find_by MotorVehicle.id repo vid

/-- `MotorVehicleRepository.save`. -/
def save (repo : List MotorVehicle) (v : MotorVehicle) : List MotorVehicle :=
  Repo.save_by MotorVehicle.id repo v

/-- `UpdateMotorVehicleMileageCommand`. -/
structure UpdateMileageCommand where
  vehicle_id : Nat
  mileage_km : Nat
  deriving Repr, DecidableEq

/-- `MotorVehicleCommandHandler.handle_update_mileage`: load by id, reject a
proposed mileage strictly below the stored one, otherwise store it, save, and
publish a `MotorVehicleMileageUpdated` event (unconditionally on success). -/
def handle_update_mileage (repo : List MotorVehicle) (cmd : UpdateMileageCommand) :
    Except MVError (List MotorVehicle × MotorVehicle × List MVEvent) :=
  match get_by_id repo cmd.vehicle_id with
  | none => .error (.motorVehicleNotFound cmd.vehicle_id)
  | some vehicle =>
    let old_mileage := vehicle.mileage_km
    if cmd.mileage_km < old_mileage then
      .error (.valueError (mileage_error_msg cmd.mileage_km old_mileage))
    else
      let vehicle := { vehicle with mileage_km := cmd.mileage_km }
      .ok (save repo vehicle, vehicle,
        [.motorVehicleMileageUpdated vehicle.id old_mileage vehicle.mileage_km])

/-- Observed database state after a vehicle command: an uncaught exception
aborts the request before any `save`, leaving the stored rows unchanged. -/
def run_state (repo : List MotorVehicle)
    (result : Except MVError (List MotorVehicle × MotorVehicle × List MVEvent)) :
    List MotorVehicle :=
  match result with
  | .ok (repo', _, _) => repo'
  | .error _ => repo

/-- A sequence of `handle_update_mileage` calls for the same vehicle,
threading the stored state; stops at the first failure. -/
def apply_mileage_updates (repo : List MotorVehicle) (vid : Nat) :
    List Nat → Except MVError (List MotorVehicle)
  | [] => .ok repo
  | km :: rest =>
    match handle_update_mileage repo { vehicle_id := vid, mileage_km := km } with
    | .error e => .error e
    | .ok (repo', _, _) => apply_mileage_updates repo' vid rest

/-- `TransferOwnershipCommand`. -/
structure TransferCommand where
  vehicle_id : Nat
  new_owner_id : Option Nat
  deriving Repr, DecidableEq

/-- `MotorVehicleCommandHandler.handle_transfer_ownership`: load the vehicle,
resolve the target customer (raising when the id does not resolve; a `none`
target clears ownership), save, and publish `MotorVehicleOwnerChanged` only
when the owner id actually changed.  `customers` is the set of existing
customer ids (`Customer.objects.filter(id=...)`). -/
def handle_transfer_ownership (repo : List MotorVehicle) (customers : List Nat)
    (cmd : TransferCommand) :
    Except MVError (List MotorVehicle × MotorVehicle × List MVEvent) :=
  match get_by_id repo cmd.vehicle_id with
  | none => .error (.motorVehicleNotFound cmd.vehicle_id)
  | some vehicle =>
    let old_owner_id := vehicle.owner_id
    match cmd.new_owner_id with
    | some cid =>
      if !customers.contains cid then
        .error (.valueError (customer_not_found_msg cid))
      else
        let vehicle := { vehicle with owner_id := some cid }
        let new_owner_id := vehicle.owner_id
        .ok (save repo vehicle, vehicle,
          if old_owner_id ≠ new_owner_id then
            [.motorVehicleOwnerChanged vehicle.id old_owner_id new_owner_id]
          else [])
    | none =>
      let vehicle := { vehicle with owner_id := none }
      let new_owner_id := vehicle.owner_id
      .ok (save repo vehicle, vehicle,
        if old_owner_id ≠ new_owner_id then
          [.motorVehicleOwnerChanged vehicle.id old_owner_id new_owner_id]
        else [])

theorem mileage_ok_of_ge (repo : List MotorVehicle) (vid : Nat) (vehicle : MotorVehicle)
    (km : Nat) (h : get_by_id repo vid = some vehicle) (hge : vehicle.mileage_km ≤ km) :
    handle_update_mileage repo { vehicle_id := vid, mileage_km := km } =
      .ok (save repo { vehicle with mileage_km := km },
        { vehicle with mileage_km := km },
        [.motorVehicleMileageUpdated vehicle.id vehicle.mileage_km km]) := by
  simp [handle_update_mileage, h, Nat.not_lt.mpr hge]

theorem mileage_err_of_lt (repo : List MotorVehicle) (vid : Nat) (vehicle : MotorVehicle)
    (km : Nat) (h : get_by_id repo vid = some vehicle) (hlt : km < vehicle.mileage_km) :
    handle_update_mileage repo { vehicle_id := vid, mileage_km := km } =
      .error (.valueError (mileage_error_msg km vehicle.mileage_km)) := by
  simp [handle_update_mileage, h, hlt]

theorem apply_mileage_updates_ok (args : List Nat) :
    ∀ (repo : List MotorVehicle) (vid : Nat) (vehicle : MotorVehicle),
    get_by_id repo vid = some vehicle →
    List.Chain (· ≤ ·) vehicle.mileage_km args →
    ∃ repo', apply_mileage_updates repo vid args = .ok repo' := by
  induction args with
  | nil => intro repo vid vehicle _ _; exact ⟨repo, rfl⟩
  | cons km rest ih =>
    intro repo vid vehicle h hch
    rcases hch with _ | ⟨hle, hch⟩
    have hkey : vehicle.id = vid := Repo.find_by_some_key MotorVehicle.id repo vid vehicle h
    have hstep := mileage_ok_of_ge repo vid vehicle km h hle
    have hfind2 : get_by_id (save repo { vehicle with mileage_km := km }) vid =
        some { vehicle with mileage_km := km } :=
      Repo.find_by_save_by MotorVehicle.id repo vid vehicle
        { vehicle with mileage_km := km } h (by simpa using hkey)
    obtain ⟨repo', hrepo'⟩ :=
      ih (save repo { vehicle with mileage_km := km }) vid
        { vehicle with mileage_km := km } hfind2 hch
    exact ⟨repo', by simp only [apply_mileage_updates, hstep]; exact hrepo'⟩

end Vehicles

namespace Vehicles

/-! ### VIN value object (`src/motor_vehicle_services/domain/value_objects.py`)

Strings are modelled as `List Char`; `str.upper` is `Char.toUpper` (they
agree on ASCII, which covers the VIN alphabet and its lowercase/hyphen/space
inputs), and `str.replace(x, "")` for a single character is a filter. -/

/-- `VIN._normalize`: uppercase, then strip spaces, then strip hyphens. -/
def vin_normalize (vin : List Char) : List Char :=
  ((vin.map Char.toUpper).filter (fun c => c ≠ ' ')).filter (fun c => c ≠ '-')

/-- One character of the class `[A-HJ-NPR-Z0-9]` (capital letters without
I, O, Q, or digits). -/
def vin_char (c : Char) : Bool :=
  ('A' ≤ c && c ≤ 'Z' && c ≠ 'I' && c ≠ 'O' && c ≠ 'Q') || ('0' ≤ c && c ≤ '9')

/-- `VIN._is_valid`: exactly 17 characters, all in `[A-HJ-NPR-Z0-9]`. -/
def vin_is_valid (vin : List Char) : Bool :=
  vin.length == 17 && vin.all vin_char

/-- `VIN.__post_init__`: normalize, then either reject with
`ValueError("Invalid VIN: ...")` (carrying the original input) or store the
normalized value. -/
def vin_mk (input : List Char) : Except (List Char) (List Char) :=
  let normalized := vin_normalize input
  if !vin_is_valid normalized then .error input else .ok normalized

theorem vin_char_toUpper_fixed {c : Char} (hc : vin_char c = true) :
    c.toUpper = c := by
  have hbound : ¬(97 ≤ c.toNat ∧ c.toNat ≤ 122) := by
    unfold vin_char at hc
    rw [Bool.or_eq_true] at hc
    rcases hc with hc | hc
    · simp only [Bool.and_eq_true, decide_eq_true_eq] at hc
      have hZ : c ≤ 'Z' := hc.1.1.1.2
      have h2 : c.toNat ≤ 90 := by
        have h1 := Char.le_def.mp hZ
        rw [UInt32.le_def, BitVec.le_def] at h1
        simpa [Char.toNat, UInt32.toNat] using h1
      omega
    · simp only [Bool.and_eq_true, decide_eq_true_eq] at hc
      have h9 : c ≤ '9' := hc.2
      have h2 : c.toNat ≤ 57 := by
        have h1 := Char.le_def.mp h9
        rw [UInt32.le_def, BitVec.le_def] at h1
        simpa [Char.toNat, UInt32.toNat] using h1
      omega
  unfold Char.toUpper
  simp only [ge_iff_le]
  rw [if_neg hbound]

theorem vin_char_not_space_hyphen {c : Char} (hc : vin_char c = true) :
    c ≠ ' ' ∧ c ≠ '-' := by
  unfold vin_char at hc
  rw [Bool.or_eq_true] at hc
  constructor <;> intro heq <;> subst heq <;>
    simp only [Bool.and_eq_true, decide_eq_true_eq] at hc <;>
    rcases hc with hc | hc <;> revert hc <;> decide

theorem vin_normalize_of_valid {vin : List Char} (hv : vin_is_valid vin = true) :
    vin_normalize vin = vin := by
  unfold vin_is_valid at hv
  rw [Bool.and_eq_true, List.all_eq_true] at hv
  unfold vin_normalize
  have hmap : vin.map Char.toUpper = vin.map id :=
    List.map_congr_left (fun c hc => vin_char_toUpper_fixed (hv.2 c hc))
  rw [hmap, List.map_id]
  rw [List.filter_eq_self.mpr, List.filter_eq_self.mpr]
  · intro c hc
    simpa using (vin_char_not_space_hyphen (hv.2 c hc)).1
  · intro c hc
    have hc' : c ∈ vin := List.mem_of_mem_filter hc
    simpa using (vin_char_not_space_hyphen (hv.2 c hc')).2

/-- `Transaction` row (`src/motor_vehicle_services/domain/models.py`):
customer and vehicle foreign keys, a type from the enumerated codes, a date
(abstracted as a day count), a `Decimal` amount and the `Decimal` fee and
discount columns (each defaulting to 0). -/
structure Transaction where
  transaction_id : Nat
  customer_id : Nat
  vehicle_id : Nat
  transaction_type : String
  transaction_date : Nat
  transaction_amount : Rat
  bz_partner_fee : Rat
  broker_fee : Rat
  service_fee : Rat
  dmv_fee : Rat
  discount : Rat
  deriving Repr, DecidableEq

/-- `Transaction.total_fees`: the sum of the four fee columns. -/
def Transaction.total_fees (t : Transaction) : Rat :=
  t.bz_partner_fee + t.broker_fee + t.service_fee + t.dmv_fee

end Vehicles

namespace Customers

/-- `Address` entity within the Customer aggregate
(`src/customer_management/domain/models.py`); the owning-customer foreign key
is implicit: an address list always belongs to one customer
(`self.addresses`). -/
structure Address where
  id : Nat
  address_line_1 : String
  address_line_2 : String
  city : String
  state_province : String
  postal_code : String
  country : String
  address_type : String
  is_primary : Bool
  deriving Repr, DecidableEq

/-- The field payload of `Customer.add_address` (the `Address.objects.create`
keyword arguments, minus the database-assigned `id`). -/
structure NewAddress where
  address_line_1 : String
  address_line_2 : String
  city : String
  state_province : String
  postal_code : String
  country : String
  address_type : String
  is_primary : Bool
  deriving Repr, DecidableEq

/-- The row `Address.objects.create` inserts for a payload, with the
database-assigned id. -/
def NewAddress.toAddress (na : NewAddress) (next_id : Nat) : Address :=
  { id := next_id
    address_line_1 := na.address_line_1
    address_line_2 := na.address_line_2
    city := na.city
    state_province := na.state_province
    postal_code := na.postal_code
    country := na.country
    address_type := na.address_type
    is_primary := na.is_primary }

/-- `Customer.add_address`: when the new address is primary, first clear the
`is_primary` flag on every existing address of this customer
(`self.addresses.filter(is_primary=True).update(is_primary=False)`), then
insert the new row. -/
def add_address (addresses : List Address) (next_id : Nat) (na : NewAddress) :
    List Address :=
  let addresses :=
    if na.is_primary then
      addresses.map (fun a => { a with is_primary := false })
    else addresses
  addresses ++ [na.toAddress next_id]

/-- A sequence of `add_address` calls starting from a customer's current
address list, ids assigned consecutively by the database. -/
def apply_adds (addresses : List Address) (next_id : Nat) :
    List NewAddress → List Address
  | [] => addresses
  | na :: rest => apply_adds (add_address addresses next_id na) (next_id + 1) rest

/-- Number of addresses flagged primary. -/
def primary_count (addresses : List Address) : Nat :=
  addresses.countP (fun a => a.is_primary)

/-- `Customer.remove_address`: delete every address row of this customer with
the given id and report whether any row was deleted
(`deleted, _ = self.addresses.filter(id=address_id).delete();
return deleted > 0`).  Total — it never raises. -/
def remove_address (addresses : List Address) (address_id : Nat) :
    List Address × Bool :=
  let deleted := addresses.countP (fun a => a.id == address_id)
  (addresses.filter (fun a => a.id != address_id), decide (deleted > 0))

theorem primary_count_add_le (addresses : List Address) (next_id : Nat)
    (na : NewAddress) (h : primary_count addresses ≤ 1) :
    primary_count (add_address addresses next_id na) ≤ 1 := by
  unfold add_address primary_count at *
  by_cases hp : na.is_primary
  · have h0 : List.countP (fun a => a.is_primary)
        (addresses.map (fun a => { a with is_primary := false })) = 0 := by
      rw [List.countP_eq_zero]
      intro a ha
      rcases List.mem_map.mp ha with ⟨b, -, rfl⟩
      simp
    have h1 : List.countP (fun a => a.is_primary) [na.toAddress next_id] ≤ 1 := by
      rcases hb : (na.toAddress next_id).is_primary <;> simp [List.countP_cons, hb]
    simp only [hp, if_true, List.countP_append, h0]
    omega
  · have hb : (na.toAddress next_id).is_primary = false := by
      simp only [NewAddress.toAddress]
      exact Bool.eq_false_iff.mpr hp
    have h1 : List.countP (fun a => a.is_primary) [na.toAddress next_id] = 0 := by
      simp [List.countP_cons, hb]
    simp only [hp, if_false, Bool.false_eq_true, List.countP_append, h1]
    omega

theorem primary_count_apply_adds (ops : List NewAddress) :
    ∀ (addresses : List Address) (next_id : Nat),
    primary_count addresses ≤ 1 →
    primary_count (apply_adds addresses next_id ops) ≤ 1 := by
  induction ops with
  | nil => intro addresses next_id h; exact h
  | cons na rest ih =>
    intro addresses next_id h
    exact ih _ _ (primary_count_add_le addresses next_id na h)

theorem filter_primary_add_primary (addresses : List Address) (next_id : Nat)
    (na : NewAddress) (hp : na.is_primary = true) :
    (add_address addresses next_id na).filter (fun a => a.is_primary) =
      [na.toAddress next_id] := by
  unfold add_address
  simp only [hp, if_true, List.filter_append]
  rw [List.filter_eq_nil_iff.mpr, List.nil_append]
  · simp [List.filter, NewAddress.toAddress, hp]
  · intro a ha
    rcases List.mem_map.mp ha with ⟨b, -, rfl⟩
    simp

/-! ### PhoneNumber value object
(`src/customer_management/domain/value_objects.py`) -/

/-- `PhoneNumber._normalize` as implemented:
`re.sub(r"[^\d+]", "", phone)` — keep the characters that are digits or a
plus sign, wherever the plus sign appears. -/
def phone_normalize (s : String) : String :=
  String.mk (s.data.filter (fun c => c.isDigit || c == '+'))

/-- `PhoneNumber` construction: normalize unconditionally; there is no
validation and no raise, so construction is total. -/
def phone_number_mk (s : String) : String :=
  phone_normalize s

/-- The normalization the `PhoneNumber` docstring and the spec describe:
every character is removed except digits and a single leading `+` (digits
kept in order; a `+` retained only as the leading sign).  Named after the
spec's words for comparison with the implementation. -/
def spec_phone_normalize (s : String) : String :=
  (if s.data.head? = some '+' then "+" else "") ++
    String.mk (s.data.filter (fun c => c.isDigit))

/-! ### Customer aggregate and its update command handlers
(`src/customers/application/commands/handlers.py`) -/

/-- `Customer` aggregate row: names, unique email, normalized phone. -/
structure Customer where
  id : Nat
  given_names : String
  surnames : String
  email : String
  phone : String
  deriving Repr, DecidableEq

/-- Exceptions a customer command handler can raise
(`src/customers/domain/exceptions.py`; `valueError` is a propagated Python
`ValueError` from a value object, carrying its message). -/
inductive CustomerError
  | customerNotFound (identifier : Nat)
  | customerAlreadyExists (email : String)
  | valueError (msg : String)
  deriving Repr, DecidableEq

/-- Domain events published by `CustomerCommandHandler`
(`src/customers/domain/events.py`); `customerUpdated` carries the
field-name/new-value changes tuple. -/
inductive CustomerEvent
  | customerUpdated (customer_id : Nat) (changes : List (String × String))
  | customerEmailChanged (customer_id : Nat) (old_email new_email : String)
  deriving Repr, DecidableEq

/-- `CustomerRepository.get_by_id`. -/
def get_by_id (repo : List Customer) (cid : Nat) : Option Customer :=
  Repo.find_by Customer.id repo cid

/-- `CustomerRepository.get_by_email` (truthiness of
`objects.filter(email=...).first()`). -/
def get_by_email (repo : List Customer) (email : String) : Option Customer :=
  repo.find? (fun c => c.email == email)

/-- `CustomerRepository.save`. -/
def save (repo : List Customer) (c : Customer) : List Customer :=
  Repo.save_by Customer.id repo c

/-- Python `x or default` for an optional string field: the command's value
when present and truthy (non-empty), the stored value otherwise. -/
def py_or (o : Option String) (default : String) : String :=
  match o with
  | some s => if s == "" then default else s
  | none => default

/-- `Email._is_valid`: full match of
`^[a-zA-Z0-9._%+-]+@[a-zA-Z0-9.-]+\.[a-zA-Z]{2,}$`. -/
def email_local_char (c : Char) : Bool :=
  c.isAlpha || c.isDigit || c == '.' || c == '_' || c == '%' || c == '+' || c == '-'

/-- One character of the regex class `[a-zA-Z0-9.-]`. -/
def email_domain_char (c : Char) : Bool :=
  c.isAlpha || c.isDigit || c == '.' || c == '-'

/-- Python `str.split(sep)` for a one-character separator. -/
def split_on_char (sep : Char) : List Char → List (List Char)
  | [] => [[]]
  | c :: rest =>
    match split_on_char sep rest with
    | [] => if c == sep then [[], []] else [[c]]
    | h :: t => if c == sep then [] :: h :: t else (c :: h) :: t

/-- Whether a string matches the `Email` regular expression: a nonempty
local part over `[a-zA-Z0-9._%+-]`, one `@`, a nonempty domain over
`[a-zA-Z0-9.-]`, a dot, and an alphabetic top-level part of length ≥ 2
(the last dot is the only candidate split since the top-level part admits
no dot). -/
def email_is_valid (s : String) : Bool :=
  match split_on_char '@' s.data with
  | [local_part, domain_part] =>
    !local_part.isEmpty && local_part.all email_local_char &&
      domain_part.all email_domain_char &&
      (match (split_on_char '.' domain_part).getLast? with
       | some tld =>
         (split_on_char '.' domain_part).length ≥ 2 &&
           tld.length ≥ 2 && tld.all Char.isAlpha &&
           domain_part.length ≥ tld.length + 2
       | none => false)
  | _ => false

/-- `UpdateCustomerCommand`: tri-state optional fields (`None` = absent). -/
structure UpdateCustomerCommand where
  customer_id : Nat
  given_names : Option String
  surnames : Option String
  phone : Option String
  deriving Repr, DecidableEq

/-- `CustomerCommandHandler.handle_update`: load by id; when a name field is
present, build a `PersonName` from the supplied-or-stored parts (raising
`ValueError` when a part is empty after trimming), recording every present
field in `changes`; when `phone` is present, normalize it (empty string
clears the phone), recording it in `changes`; save; publish a
`CustomerUpdated` event exactly when `changes` is non-empty. -/
def handle_update (repo : List Customer) (cmd : UpdateCustomerCommand) :
    Except CustomerError (List Customer × Customer × List CustomerEvent) :=
  match get_by_id repo cmd.customer_id with
  | none => .error (.customerNotFound cmd.customer_id)
  | some customer =>
    let name_step : Except CustomerError (List (String × String) × Customer) :=
      if cmd.given_names.isSome || cmd.surnames.isSome then
        let gn := py_or cmd.given_names customer.given_names
        let sn := py_or cmd.surnames customer.surnames
        if gn == "" || gn.trim == "" then
          .error (.valueError "Given names cannot be empty")
        else if sn == "" || sn.trim == "" then
          .error (.valueError "Surnames cannot be empty")
        else
          let changes :=
            (match cmd.given_names with
             | some g => [("given_names", g)]
             | none => []) ++
            (match cmd.surnames with
             | some s => [("surnames", s)]
             | none => [])
          .ok (changes, { customer with given_names := gn, surnames := sn })
      else .ok ([], customer)
    match name_step with
    | .error e => .error e
    | .ok (changes, customer) =>
      let step2 : List (String × String) × Customer :=
        match cmd.phone with
        | some pv =>
          let phone_value := if pv == "" then "" else phone_normalize pv
          (changes ++ [("phone", phone_value)], { customer with phone := phone_value })
        | none => (changes, customer)
      let changes := step2.1
      let customer := step2.2
      let repo := save repo customer
      let events :=
        if changes.isEmpty then ([] : List CustomerEvent)
        else [.customerUpdated customer.id changes]
      .ok (repo, customer, events)

/-- `UpdateCustomerEmailCommand`. -/
structure UpdateEmailCommand where
  customer_id : Nat
  email : String
  deriving Repr, DecidableEq

/-- `CustomerCommandHandler.handle_update_email`: load by id; validate the
email (`ValueError("Invalid email: ...")` on bad format); return the
unchanged customer with no event when the new email equals the stored one;
otherwise reject a duplicate email, store the new one, save, and publish a
`CustomerEmailChanged` event. -/
def handle_update_email (repo : List Customer) (cmd : UpdateEmailCommand) :
    Except CustomerError (List Customer × Customer × List CustomerEvent) :=
  match get_by_id repo cmd.customer_id with
  | none => .error (.customerNotFound cmd.customer_id)
  | some customer =>
    if !email_is_valid cmd.email then
      .error (.valueError ("Invalid email: " ++ cmd.email))
    else if customer.email == cmd.email then
      .ok (repo, customer, [])
    else
      match get_by_email repo cmd.email with
      | some _ => .error (.customerAlreadyExists cmd.email)
      | none =>
        let old_email := customer.email
        let customer := { customer with email := cmd.email }
        .ok (save repo customer, customer,
          [.customerEmailChanged customer.id old_email customer.email])

end Customers

namespace Vehicles

/-- `UpdateMotorVehicleCommand` as consumed by
`MotorVehicleCommandHandler.handle_update`: tri-state optional fields
(`None` = absent); the handler reads exactly these six fields (one stale DTO
variant in the repository lists only the plate fields, but the handler and
its tests use all six). -/
structure UpdateCommand where
  vehicle_id : Nat
  color : Option String
  fuel_type : Option String
  transmission : Option String
  engine_capacity_cc : Option Nat
  license_plate : Option String
  license_plate_state : Option String
  deriving Repr, DecidableEq

/-- Python `str.upper` (ASCII). -/
def py_upper (s : String) : String :=
  String.map Char.toUpper s

/-- `MotorVehicleCommandHandler.handle_update`: load by id; for each field
present in the command, record it in `changes` (with its raw command value)
and assign it on the vehicle (the license plate uppercased); save; publish a
`MotorVehicleUpdated` event exactly when `changes` is non-empty. -/
def handle_update (repo : List MotorVehicle) (cmd : UpdateCommand) :
    Except MVError (List MotorVehicle × MotorVehicle × List MVEvent) :=
  match get_by_id repo cmd.vehicle_id with
  | none => .error (.motorVehicleNotFound cmd.vehicle_id)
  | some vehicle =>
    let step : List (String × PyVal) × MotorVehicle := ([], vehicle)
    let step :=
      match cmd.color with
      | some c => (step.1 ++ [("color", PyVal.s c)], { step.2 with color := c })
      | none => step
    let step :=
      match cmd.fuel_type with
      | some f => (step.1 ++ [("fuel_type", PyVal.s f)], { step.2 with fuel_type := f })
      | none => step
    let step :=
      match cmd.transmission with
      | some t => (step.1 ++ [("transmission", PyVal.s t)], { step.2 with transmission := t })
      | none => step
    let step :=
      match cmd.engine_capacity_cc with
      | some e => (step.1 ++ [("engine_capacity_cc", PyVal.i e)],
          { step.2 with engine_capacity_cc := e })
      | none => step
    let step :=
      match cmd.license_plate with
      | some lp => (step.1 ++ [("license_plate", PyVal.s lp)],
          { step.2 with license_plate := py_upper lp })
      | none => step
    let step :=
      match cmd.license_plate_state with
      | some st => (step.1 ++ [("license_plate_state", PyVal.s st)],
          { step.2 with license_plate_state := st })
      | none => step
    let changes := step.1
    let vehicle := step.2
    let repo := save repo vehicle
    let events :=
      if changes.isEmpty then ([] : List MVEvent)
      else [.motorVehicleUpdated vehicle.id changes]
    .ok (repo, vehicle, events)

end Vehicles

/-- C9: evaluation of the implemented `PhoneNumber` normalization at the
failing input "555+123": the implementation keeps the interior `+`
(`re.sub(r"[^\d+]", "", ...)` keeps every `+`), while the behaviour the claim
(and the code's own docstring) describes — a `+` retained only as the
leading sign — yields "555123".  Construction itself is total, as the claim
says. -/
theorem C9_phone_plus_divergence :
    Customers.phone_number_mk "555+123" = "555+123"
    ∧ Customers.spec_phone_normalize "555+123" = "555123"
    ∧ Customers.phone_number_mk "555+123" ≠
        Customers.spec_phone_normalize "555+123"
    ∧ Customers.phone_number_mk "+1 (555) 123-4567" = "+15551234567"
    ∧ Customers.spec_phone_normalize "+1 (555) 123-4567" = "+15551234567" := by
  refine ⟨by decide, by decide, by decide, by decide, by decide⟩

/-- C6 counterexample: `handle_update_mileage` on a vehicle with stored
mileage 50000 and a proposed value of 50000 succeeds, returns the unchanged
vehicle, and still publishes a `MotorVehicleMileageUpdated` event — the
claim says a supplied field equal to the stored value publishes no event. -/
theorem C6_counterexample_noop_mileage_event :
    Vehicles.handle_update_mileage
      [⟨1, "1HGCM82633A004352", "Honda", "Accord", 2020, "Blue", "petrol", "manual",
        1998, 50000, "", "", "active", none⟩]
      { vehicle_id := 1, mileage_km := 50000 } =
    .ok ([⟨1, "1HGCM82633A004352", "Honda", "Accord", 2020, "Blue", "petrol", "manual",
        1998, 50000, "", "", "active", none⟩],
      ⟨1, "1HGCM82633A004352", "Honda", "Accord", 2020, "Blue", "petrol", "manual",
        1998, 50000, "", "", "active", none⟩,
      [.motorVehicleMileageUpdated 1 50000 50000])
    ∧ [Vehicles.MVEvent.motorVehicleMileageUpdated 1 50000 50000] ≠
        ([] : List Vehicles.MVEvent) := by
  exact ⟨by rfl, by decide⟩

/-- C6 as amended: the update handlers do not compare supplied values with
stored ones (except `handle_update_email`).  Precisely: an update command
carrying no fields returns the unchanged aggregate and publishes no event;
`CustomerCommandHandler.handle_update` and
`MotorVehicleCommandHandler.handle_update` publish their event on success iff
the command carries at least one field, even when every supplied value equals
the stored one; `handle_update_email` publishes iff the (valid) new email
differs from the stored one; and `handle_update_mileage` publishes its event
on every success, including an equal-mileage no-op. -/
theorem C6_update_event_conditions
    (crepo : List Customers.Customer) (cid : Nat) (customer : Customers.Customer)
    (h : Customers.get_by_id crepo cid = some customer)
    (vrepo : List Vehicles.MotorVehicle) (vid : Nat) (vehicle : Vehicles.MotorVehicle)
    (hv : Vehicles.get_by_id vrepo vid = some vehicle) :
    (Customers.handle_update crepo
        { customer_id := cid, given_names := none, surnames := none, phone := none } =
      .ok (Customers.save crepo customer, customer, []))
    ∧ (∀ (cmd : Customers.UpdateCustomerCommand), cmd.customer_id = cid →
      ∀ r c evs, Customers.handle_update crepo cmd = .ok (r, c, evs) →
      (evs ≠ [] ↔
        (cmd.given_names.isSome ∨ cmd.surnames.isSome ∨ cmd.phone.isSome)))
    ∧ (Vehicles.handle_update vrepo
        { vehicle_id := vid, color := none, fuel_type := none, transmission := none,
          engine_capacity_cc := none, license_plate := none,
          license_plate_state := none } =
      .ok (Vehicles.save vrepo vehicle, vehicle, []))
    ∧ (∀ (cmd : Vehicles.UpdateCommand), cmd.vehicle_id = vid →
      ∀ r v evs, Vehicles.handle_update vrepo cmd = .ok (r, v, evs) →
      (evs ≠ [] ↔
        (cmd.color.isSome ∨ cmd.fuel_type.isSome ∨ cmd.transmission.isSome ∨
          cmd.engine_capacity_cc.isSome ∨ cmd.license_plate.isSome ∨
          cmd.license_plate_state.isSome)))
    ∧ (∀ e, Customers.email_is_valid e = true → customer.email = e →
      Customers.handle_update_email crepo { customer_id := cid, email := e } =
        .ok (crepo, customer, []))
    ∧ (∀ e r c evs, Customers.handle_update_email crepo
        { customer_id := cid, email := e } = .ok (r, c, evs) →
      (evs = [] ↔ customer.email = e))
    ∧ (∀ km r v evs, Vehicles.handle_update_mileage vrepo
        { vehicle_id := vid, mileage_km := km } = .ok (r, v, evs) →
      evs = [.motorVehicleMileageUpdated vehicle.id vehicle.mileage_km km]) := by
  refine ⟨?_, ?_, ?_, ?_, ?_, ?_, ?_⟩
  · simp [Customers.handle_update, h]
  · rintro ⟨cid', g, s, p⟩ hcid r c evs hok
    simp only at hcid
    subst hcid
    cases g <;> cases s <;> cases p <;>
      simp [Customers.handle_update, h] at hok <;>
      (try split at hok) <;> (try split at hok) <;>
      (try obtain ⟨-, -, rfl⟩ := hok) <;>
      (try (rename_i heq; split at heq)) <;> (try split at heq) <;>
      simp_all
  · simp [Vehicles.handle_update, hv]
  · rintro ⟨vid', c1, c2, c3, c4, c5, c6⟩ hvid r v evs hok
    simp only at hvid
    subst hvid
    cases c1 <;> cases c2 <;> cases c3 <;> cases c4 <;> cases c5 <;> cases c6 <;>
      simp [Vehicles.handle_update, hv] at hok <;>
      (try obtain ⟨-, -, rfl⟩ := hok) <;> simp_all
  · intro e hvalid heq
    simp [Customers.handle_update_email, h, hvalid, heq]
  · intro e r c evs hok
    by_cases hvalid : Customers.email_is_valid e
    · by_cases heq : customer.email = e
      · simp [Customers.handle_update_email, h, hvalid, heq] at hok
        obtain ⟨-, -, rfl⟩ := hok
        simp [heq]
      · simp only [Customers.handle_update_email, h, hvalid, Bool.not_true,
          Bool.false_eq_true, if_false] at hok
        rw [if_neg (by simpa using heq)] at hok
        constructor
        · intro hevs
          rw [hevs] at hok
          split at hok <;> simp at hok
        · intro hc
          exact absurd hc heq
    · simp [Customers.handle_update_email, h, hvalid] at hok
  · intro km r v evs hok
    by_cases hlt : km < vehicle.mileage_km
    · rw [Vehicles.mileage_err_of_lt vrepo vid vehicle km hv hlt] at hok
      exact absurd hok (by simp)
    · rw [Vehicles.mileage_ok_of_ge vrepo vid vehicle km hv (Nat.le_of_not_lt hlt)] at hok
      have := congrArg (fun x => x.2.2) (Except.ok.inj hok)
      simpa using this.symm

/-- Witness for the amended C6 at concrete one-row tables: the no-field
customer command returns the unchanged customer with no event, and an
equal-mileage update publishes exactly one event. -/
theorem C6_update_event_conditions_witness :
    (Customers.handle_update [⟨1, "John", "Doe", "john@example.com", "123"⟩]
        { customer_id := 1, given_names := none, surnames := none, phone := none } =
      .ok (Customers.save [⟨1, "John", "Doe", "john@example.com", "123"⟩]
          ⟨1, "John", "Doe", "john@example.com", "123"⟩,
        ⟨1, "John", "Doe", "john@example.com", "123"⟩, []))
    ∧ ∀ r v evs, Vehicles.handle_update_mileage
        [⟨1, "1HGCM82633A004352", "Honda", "Accord", 2020, "Blue", "petrol", "manual",
          1998, 50000, "", "", "active", none⟩]
        { vehicle_id := 1, mileage_km := 50000 } = .ok (r, v, evs) →
      evs = [.motorVehicleMileageUpdated 1 50000 50000] := by
  have hmain := C6_update_event_conditions
    [⟨1, "John", "Doe", "john@example.com", "123"⟩] 1
    ⟨1, "John", "Doe", "john@example.com", "123"⟩ (by decide)
    [⟨1, "1HGCM82633A004352", "Honda", "Accord", 2020, "Blue", "petrol", "manual",
      1998, 50000, "", "", "active", none⟩] 1
    ⟨1, "1HGCM82633A004352", "Honda", "Accord", 2020, "Blue", "petrol", "manual",
      1998, 50000, "", "", "active", none⟩ (by decide)
  exact ⟨hmain.1, fun r v evs hok => hmain.2.2.2.2.2.2 50000 r v evs hok⟩

/-- C4: starting from a customer with no addresses, any sequence of
`add_address` operations leaves at most one address flagged primary; and
adding two addresses both flagged primary (from any address list) leaves
exactly the second one primary when the primary addresses are listed. -/
theorem C4_primary_address_exclusive :
    (∀ ops : List Customers.NewAddress,
      Customers.primary_count (Customers.apply_adds [] 0 ops) ≤ 1)
    ∧ (∀ (addresses : List Customers.Address) (next_id : Nat)
        (na1 na2 : Customers.NewAddress),
      na1.is_primary = true → na2.is_primary = true →
      (Customers.apply_adds addresses next_id [na1, na2]).filter
          (fun a => a.is_primary) =
        [na2.toAddress (next_id + 1)]) := by
  constructor
  · intro ops
    exact Customers.primary_count_apply_adds ops [] 0
      (by simp [Customers.primary_count])
  · intro addresses next_id na1 na2 h1 h2
    show (Customers.add_address
        (Customers.add_address addresses next_id na1) (next_id + 1) na2).filter
        (fun a => a.is_primary) = [na2.toAddress (next_id + 1)]
    exact Customers.filter_primary_add_primary _ _ na2 h2

/-- Witness for C4: two concrete both-primary addresses added to an empty
list; the primary listing is exactly the second row. -/
theorem C4_primary_address_exclusive_witness :
    Customers.primary_count (Customers.apply_adds [] 0
      [⟨"1 Main St", "", "Springfield", "", "12345", "USA", "home", true⟩,
       ⟨"2 Oak Ave", "", "Shelbyville", "", "54321", "USA", "work", true⟩]) ≤ 1
    ∧ (Customers.apply_adds [] 0
        [⟨"1 Main St", "", "Springfield", "", "12345", "USA", "home", true⟩,
         ⟨"2 Oak Ave", "", "Shelbyville", "", "54321", "USA", "work", true⟩]).filter
        (fun a => a.is_primary) =
      [Customers.NewAddress.toAddress
        ⟨"2 Oak Ave", "", "Shelbyville", "", "54321", "USA", "work", true⟩ 1] :=
  ⟨(C4_primary_address_exclusive).1
      [⟨"1 Main St", "", "Springfield", "", "12345", "USA", "home", true⟩,
       ⟨"2 Oak Ave", "", "Shelbyville", "", "54321", "USA", "work", true⟩],
    (C4_primary_address_exclusive).2 [] 0
      ⟨"1 Main St", "", "Springfield", "", "12345", "USA", "home", true⟩
      ⟨"2 Oak Ave", "", "Shelbyville", "", "54321", "USA", "work", true⟩ rfl rfl⟩

/-- C8: `Customer.remove_address` is total (never raises); it returns `true`
exactly when an address with the given id exists in this customer's address
list, removes precisely the rows with that id, and a second call with the
same id always returns `false`. -/
theorem C8_remove_address_idempotent (addresses : List Customers.Address)
    (address_id : Nat) :
    ((Customers.remove_address addresses address_id).2 = true ↔
      ∃ a ∈ addresses, a.id = address_id)
    ∧ (Customers.remove_address addresses address_id).1 =
        addresses.filter (fun a => a.id != address_id)
    ∧ (Customers.remove_address
        (Customers.remove_address addresses address_id).1 address_id).2 =
      false := by
  refine ⟨?_, rfl, ?_⟩
  · unfold Customers.remove_address
    simp only [decide_eq_true_eq, gt_iff_lt, List.countP_pos_iff]
    constructor
    · rintro ⟨a, ha, hp⟩
      exact ⟨a, ha, by simpa using hp⟩
    · rintro ⟨a, ha, hp⟩
      exact ⟨a, ha, by simpa using hp⟩
  · unfold Customers.remove_address
    simp only [decide_eq_true_eq, gt_iff_lt, List.countP_pos_iff]
    rw [decide_eq_false_iff_not]
    rintro ⟨a, ha, hp⟩
    have := List.of_mem_filter ha
    simp only [bne_iff_ne, ne_eq] at this
    exact this (by simpa using hp)

/-- C5: VIN construction succeeds exactly when the normalized input
(uppercased, spaces and hyphens stripped) is 17 characters over
`[A-HJ-NPR-Z0-9]`, in which case the stored value is the normalized string
and construction is idempotent on it; otherwise it fails with the
`InvalidFormat` error kind (`ValueError("Invalid VIN: ...")` carrying the
original input). -/
theorem C5_vin_normalize_roundtrip (v : List Char) :
    (Vehicles.vin_is_valid (Vehicles.vin_normalize v) = true →
      Vehicles.vin_mk v = .ok (Vehicles.vin_normalize v)
      ∧ Vehicles.vin_mk (Vehicles.vin_normalize v) = .ok (Vehicles.vin_normalize v))
    ∧ (Vehicles.vin_is_valid (Vehicles.vin_normalize v) = false →
      Vehicles.vin_mk v = .error v) := by
  constructor
  · intro hv
    constructor
    · simp [Vehicles.vin_mk, hv]
    · simp [Vehicles.vin_mk, Vehicles.vin_normalize_of_valid hv, hv]
  · intro hv
    simp [Vehicles.vin_mk, hv]

/-- Witness for C5 on the spec's scenario VIN written with lowercase letters,
a hyphen and a space: construction succeeds with the normalized value and is
idempotent on it; and a too-short input fails carrying the original input. -/
theorem C5_vin_normalize_roundtrip_witness :
    (Vehicles.vin_is_valid
        (Vehicles.vin_normalize ("1hgcm-82633 a004352".data)) = true)
    ∧ Vehicles.vin_mk ("1hgcm-82633 a004352".data) =
        .ok ("1HGCM82633A004352".data)
    ∧ Vehicles.vin_mk ("1HGCM82633A004352".data) =
        .ok ("1HGCM82633A004352".data)
    ∧ Vehicles.vin_mk ("ABC".data) = .error ("ABC".data) := by
  have heq : Vehicles.vin_normalize ("1hgcm-82633 a004352".data) =
      "1HGCM82633A004352".data := by decide
  have hmain := C5_vin_normalize_roundtrip ("1hgcm-82633 a004352".data)
  have hvalid : Vehicles.vin_is_valid
      (Vehicles.vin_normalize ("1hgcm-82633 a004352".data)) = true := by decide
  have hshort := C5_vin_normalize_roundtrip ("ABC".data)
  refine ⟨hvalid, ?_, ?_, hshort.2 (by decide)⟩
  · rw [← heq]; exact (hmain.1 hvalid).1
  · rw [← heq]; exact (hmain.1 hvalid).2

/-- C10: a transaction's `total_fees` is exactly the sum of the BZ-partner,
broker, service and DMV fees, and the `discount` column does not participate:
changing `discount` arbitrarily never changes `total_fees`. -/
theorem C10_total_fees_sum (t : Vehicles.Transaction) :
    t.total_fees = t.bz_partner_fee + t.broker_fee + t.service_fee + t.dmv_fee
    ∧ ∀ d : Rat, ({ t with discount := d } : Vehicles.Transaction).total_fees =
        t.total_fees :=
  ⟨rfl, fun _ => rfl⟩

/-- C7: for an existing vehicle, ownership transfer fails with the
`ReferenceNotFound` error kind (a `ValueError` naming the unresolved customer
id) when the target customer does not resolve, leaving the stored rows — and
hence the owner — unchanged; transferring to an absent (`none`) target
succeeds and leaves ownership absent; and a transfer whose target equals the
current owner (including both absent) succeeds and publishes no
owner-changed event. -/
theorem C7_transfer_ownership (repo : List Vehicles.MotorVehicle)
    (customers : List Nat) (vid : Nat) (vehicle : Vehicles.MotorVehicle)
    (h : Vehicles.get_by_id repo vid = some vehicle) :
    (∀ cid, customers.contains cid = false →
      Vehicles.handle_transfer_ownership repo customers
          { vehicle_id := vid, new_owner_id := some cid } =
        .error (.valueError (Vehicles.customer_not_found_msg cid))
      ∧ Vehicles.run_state repo
          (Vehicles.handle_transfer_ownership repo customers
            { vehicle_id := vid, new_owner_id := some cid }) = repo)
    ∧ (∃ evs, Vehicles.handle_transfer_ownership repo customers
          { vehicle_id := vid, new_owner_id := none } =
        .ok (Vehicles.save repo { vehicle with owner_id := none },
          { vehicle with owner_id := none }, evs))
    ∧ (vehicle.owner_id = none →
      Vehicles.handle_transfer_ownership repo customers
          { vehicle_id := vid, new_owner_id := none } =
        .ok (Vehicles.save repo vehicle, vehicle, []))
    ∧ (∀ cid, vehicle.owner_id = some cid → customers.contains cid = true →
      Vehicles.handle_transfer_ownership repo customers
          { vehicle_id := vid, new_owner_id := some cid } =
        .ok (Vehicles.save repo vehicle, vehicle, [])) := by
  refine ⟨?_, ?_, ?_, ?_⟩
  · intro cid hcid
    have hmem : cid ∉ customers := by simpa using hcid
    constructor
    · simp [Vehicles.handle_transfer_ownership, h, hmem]
    · rw [Vehicles.run_state.eq_def]
      simp [Vehicles.handle_transfer_ownership, h, hmem]
  · refine ⟨if vehicle.owner_id = none then []
      else [.motorVehicleOwnerChanged vehicle.id vehicle.owner_id none], ?_⟩
    simp [Vehicles.handle_transfer_ownership, h]
  · intro hnone
    have heta : ({ vehicle with owner_id := none } : Vehicles.MotorVehicle) = vehicle := by
      cases vehicle; simp_all
    simp [Vehicles.handle_transfer_ownership, h, hnone, heta]
  · intro cid hown hcid
    have hmem : cid ∈ customers := by simpa using hcid
    have heta : ({ vehicle with owner_id := some cid } : Vehicles.MotorVehicle) = vehicle := by
      cases vehicle; simp_all
    simp [Vehicles.handle_transfer_ownership, h, hmem, hown, heta]

/-- Witness for C7 on a concrete vehicle owned by customer 7, with customers
7 and 9 existing: transfer to the unresolved id 8 fails with the
customer-not-found `ValueError`, and transfer to the current owner 7
succeeds with no event published. -/
theorem C7_transfer_ownership_witness :
    (Vehicles.handle_transfer_ownership
        [⟨1, "1HGCM82633A004352", "Honda", "Accord", 2020, "Blue", "petrol", "manual",
          1998, 50000, "", "", "active", some 7⟩] [7, 9]
        { vehicle_id := 1, new_owner_id := some 8 } =
      .error (.valueError (Vehicles.customer_not_found_msg 8)))
    ∧ (Vehicles.handle_transfer_ownership
        [⟨1, "1HGCM82633A004352", "Honda", "Accord", 2020, "Blue", "petrol", "manual",
          1998, 50000, "", "", "active", some 7⟩] [7, 9]
        { vehicle_id := 1, new_owner_id := some 7 } =
      .ok (Vehicles.save
          [⟨1, "1HGCM82633A004352", "Honda", "Accord", 2020, "Blue", "petrol", "manual",
            1998, 50000, "", "", "active", some 7⟩]
          ⟨1, "1HGCM82633A004352", "Honda", "Accord", 2020, "Blue", "petrol", "manual",
            1998, 50000, "", "", "active", some 7⟩,
        ⟨1, "1HGCM82633A004352", "Honda", "Accord", 2020, "Blue", "petrol", "manual",
          1998, 50000, "", "", "active", some 7⟩, [])) := by
  have hmain := C7_transfer_ownership
    [⟨1, "1HGCM82633A004352", "Honda", "Accord", 2020, "Blue", "petrol", "manual",
      1998, 50000, "", "", "active", some 7⟩] [7, 9] 1
    ⟨1, "1HGCM82633A004352", "Honda", "Accord", 2020, "Blue", "petrol", "manual",
      1998, 50000, "", "", "active", some 7⟩ (by decide)
  exact ⟨(hmain.1 8 (by decide)).1, hmain.2.2.2 7 rfl (by decide)⟩

/-- C3: for an existing vehicle, `update_mileage` with a proposed value
strictly below the stored mileage fails with the `InvalidMileageUpdate`
error kind (a `ValueError` whose message says the new mileage "cannot be less
than" the current one) and the stored rows are unchanged; a proposed value
equal to the stored mileage is an accepted no-op, a greater one succeeds and
stores the new value, and any sequence of calls whose arguments are
non-decreasing from the stored mileage succeeds throughout. -/
theorem C3_update_mileage_monotone (repo : List Vehicles.MotorVehicle) (vid : Nat)
    (vehicle : Vehicles.MotorVehicle) (h : Vehicles.get_by_id repo vid = some vehicle) :
    (∀ km, km < vehicle.mileage_km →
      Vehicles.handle_update_mileage repo { vehicle_id := vid, mileage_km := km } =
        .error (.valueError (Vehicles.mileage_error_msg km vehicle.mileage_km))
      ∧ Vehicles.run_state repo
          (Vehicles.handle_update_mileage repo { vehicle_id := vid, mileage_km := km }) =
        repo)
    ∧ (∀ km, vehicle.mileage_km ≤ km →
      ∃ repo', Vehicles.handle_update_mileage repo { vehicle_id := vid, mileage_km := km } =
        .ok (repo', { vehicle with mileage_km := km },
          [.motorVehicleMileageUpdated vehicle.id vehicle.mileage_km km]))
    ∧ (Vehicles.handle_update_mileage repo
        { vehicle_id := vid, mileage_km := vehicle.mileage_km } =
      .ok (Vehicles.save repo vehicle, vehicle,
        [.motorVehicleMileageUpdated vehicle.id vehicle.mileage_km vehicle.mileage_km]))
    ∧ (∀ args, List.Chain (· ≤ ·) vehicle.mileage_km args →
      ∃ repo', Vehicles.apply_mileage_updates repo vid args = .ok repo') := by
  refine ⟨?_, ?_, ?_, ?_⟩
  · intro km hlt
    refine ⟨Vehicles.mileage_err_of_lt repo vid vehicle km h hlt, ?_⟩
    rw [Vehicles.run_state.eq_def, Vehicles.mileage_err_of_lt repo vid vehicle km h hlt]
  · intro km hge
    exact ⟨_, Vehicles.mileage_ok_of_ge repo vid vehicle km h hge⟩
  · exact Vehicles.mileage_ok_of_ge repo vid vehicle vehicle.mileage_km h le_rfl
  · intro args hch
    exact Vehicles.apply_mileage_updates_ok args repo vid vehicle h hch

/-- Witness for C3 on the spec's scenario vehicle (stored mileage 50000 km):
updating to 40000 fails with the "cannot be less than" `ValueError`, and the
non-decreasing sequence 50000, 55000, 60000 succeeds. -/
theorem C3_update_mileage_monotone_witness :
    (Vehicles.handle_update_mileage
        [⟨1, "1HGCM82633A004352", "Honda", "Accord", 2020, "Blue", "petrol", "manual",
          1998, 50000, "", "", "active", none⟩]
        { vehicle_id := 1, mileage_km := 40000 } =
      .error (.valueError (Vehicles.mileage_error_msg 40000 50000)))
    ∧ (∃ repo', Vehicles.apply_mileage_updates
        [⟨1, "1HGCM82633A004352", "Honda", "Accord", 2020, "Blue", "petrol", "manual",
          1998, 50000, "", "", "active", none⟩] 1 [50000, 55000, 60000] = .ok repo') := by
  have hmain := C3_update_mileage_monotone
    [⟨1, "1HGCM82633A004352", "Honda", "Accord", 2020, "Blue", "petrol", "manual",
      1998, 50000, "", "", "active", none⟩] 1
    ⟨1, "1HGCM82633A004352", "Honda", "Accord", 2020, "Blue", "petrol", "manual",
      1998, 50000, "", "", "active", none⟩ (by decide)
  refine ⟨(hmain.1 40000 (by decide)).1,
    hmain.2.2.2 [50000, 55000, 60000] ?_⟩
  exact List.Chain.cons (by decide)
    (List.Chain.cons (by decide) (List.Chain.cons (by decide) List.Chain.nil))
